import Mathlib

/-!
Verification development for the `tspro` stamper program (`stamper.py`).

Strings are modelled as `List Char`; Python floats are modelled as exact
rationals (`ℚ`) and Python integers as `ℤ`.  Python's `//` on non-negative
operands is floor division, modelled with `Int.floor` over `ℚ`.
-/

/-! ## Escaping (stamper.py, lines 48-49) -/

/-- Python `str.replace` for a single-character needle: every occurrence of the
character `c` is replaced by the string `r`. -/
def replaceChar (c : Char) (r : List Char) : List Char → List Char
  | [] => []
  | a :: s => (if a = c then r else [a]) ++ replaceChar c r s

/-- `escape` from stamper.py line 48-49:
`value.replace(':', '\:').replace('"', '\"').replace('\\', '\\\\')`.
The three replacements are applied in exactly the source order: colon first,
then double-quote, then backslash last. -/
def escape (s : List Char) : List Char :=
  replaceChar '\\' ['\\', '\\'] (replaceChar '"' ['\\', '"'] (replaceChar ':' ['\\', ':'] s))

/-- The intended de-escape rule of the consuming filter parser: a backslash
makes the immediately following character literal; all other characters stand
for themselves. -/
def unescape : List Char → List Char
  | '\\' :: c :: s => c :: unescape s
  | c :: s => c :: unescape s
  | [] => []

/-! ## Quantization parameter (stamper.py, line 82) -/

/-- `qp` from stamper.py line 82: `min((101 - quality) // (2 if gpu else 1.7), 51)`.
Python `//` is floor division; the literal `1.7` is the exact rational `17/10`
(for the quality range `0..100` the float evaluation of `(101-q)/1.7` rounds to
a double whose floor agrees with the exact rational floor). -/
def qp (quality : ℤ) (gpu : Bool) : ℤ :=
  min ⌊(101 - (quality : ℚ)) / (if gpu then 2 else 17 / 10)⌋ 51

/-- Clamp an integer into `[lo, hi]`. -/
def clamp (lo hi x : ℤ) : ℤ := max lo (min x hi)

/-- The quantization formula as the spec words it (claim C2):
`clamp(round((101 - qualityPercent) / (gpu ? 2.0 : 1.7)), 0, 51)`.  This is the
spec-side definition, to be compared against `qp` from the source. -/
def qpRoundSpec (quality : ℤ) (gpu : Bool) : ℤ :=
  clamp 0 51 (round ((101 - (quality : ℚ)) / (if gpu then 2 else 17 / 10)))

/-! ## Claim C1 -/

/-- Claim C1 (code bug evidence): the escape round-trip fails on the one-character
string `":"`.  The source escapes the colon to `\:` and then the final
backslash replacement doubles the backslash it just introduced, producing
`\\:`; the consuming parser's de-escape rule turns that into `\:`, not `:`. -/
theorem escape_colon_roundtrip_fails :
    escape [':'] = ['\\', '\\', ':']
    ∧ unescape (escape [':']) = ['\\', ':']
    ∧ unescape (escape [':']) ≠ [':'] := by
  decide

/-! ## Claim C2 -/

/-- Claim C2 (counterexample): at `qualityPercent = 100`, `gpu = false` the code's
quantization parameter is `floor(1/1.7) = 0`, while the claimed formula
`clamp(round(1/1.7), 0, 51)` gives `round(0.588...) = 1`. -/
theorem qp_floor_not_round :
    qp 100 false = 0 ∧ qpRoundSpec 100 false = 1 ∧ qp 100 false ≠ qpRoundSpec 100 false := by
  have h1 : qp 100 false = 0 := by
    unfold qp
    norm_num
  have h2 : qpRoundSpec 100 false = 1 := by
    unfold qpRoundSpec clamp
    rw [round_eq]
    norm_num
  exact ⟨h1, h2, by rw [h1, h2]; decide⟩

/-- Claim C2 (amended): the planner's quantization parameter equals
`min(floor((101 - qualityPercent) / (gpu ? 2 : 1.7)), 51)` (floor division, no
explicit lower clamp), and for every `qualityPercent ∈ [0, 100]` and both gpu
values it is an integer within `[0, 51]` inclusive. -/
theorem qp_in_range (quality : ℤ) (gpu : Bool) (_h0 : 0 ≤ quality) (h1 : quality ≤ 100) :
    qp quality gpu = min ⌊(101 - (quality : ℚ)) / (if gpu then 2 else 17 / 10)⌋ 51
    ∧ 0 ≤ qp quality gpu ∧ qp quality gpu ≤ 51 := by
  refine ⟨rfl, ?_, min_le_right _ _⟩
  apply le_min
  · apply Int.le_floor.mpr
    push_cast
    apply div_nonneg
    · have hq : (quality : ℚ) ≤ 100 := by exact_mod_cast h1
      linarith
    · cases gpu <;> norm_num
  · norm_num

/-- Witness for `qp_in_range` at the CLI default `quality = 72`, `gpu = false`. -/
theorem qp_in_range_witness :
    qp 72 false = min ⌊(101 - (72 : ℚ)) / (if false then 2 else 17 / 10)⌋ 51
    ∧ 0 ≤ qp 72 false ∧ qp 72 false ≤ 51 :=
  qp_in_range 72 false (by decide) (by decide)

/-! ## Output path (stamper.py, line 83)

`output = re.sub(r'\.(\w+)$', fr'{suffix}.\1', filename)`.  The pattern
matches a dot followed by one or more word characters running to the end of
the string; because the word-character class cannot cross a dot, the unique
match (when one exists) sits at the last dot whose tail is a non-empty run of
word characters.  The substitution inserts the suffix before that dot. -/

/-- Python `\w` on the ASCII inputs at hand: alphanumeric or underscore. -/
def isWordChar (c : Char) : Bool := c.isAlphanum || c = '_'

/-- Locate the `\.(\w+)$` match of stamper.py line 83: returns
`some (stem, ext)` when `filename = stem ++ '.' :: ext` with `ext` a non-empty
run of word characters reaching the end of the string, `none` when the
pattern does not match. -/
def splitExt (f : List Char) : Option (List Char × List Char) :=
  let r := f.reverse
  let extR := r.takeWhile isWordChar
  match r.dropWhile isWordChar with
  | '.' :: stemR => if extR = [] then none else some (stemR.reverse, extR.reverse)
  | _ => none

/-- The `re.sub` of stamper.py line 83: insert the suffix before the final
`.extension` segment; when the pattern does not match, `re.sub` returns the
input unchanged. -/
def outputName (f suf : List Char) : List Char :=
  match splitExt f with
  | some (stem, ext) => stem ++ suf ++ '.' :: ext
  | none => f

/-- `splitExt` really decomposes the input: a successful match means the
filename is the stem, a dot, and the extension. -/
theorem splitExt_decomp {f stem ext : List Char}
    (h : splitExt f = some (stem, ext)) : f = stem ++ '.' :: ext := by
  simp only [splitExt] at h
  split at h
  next stemR heq =>
    split at h
    · exact absurd h (by simp)
    next =>
      rw [Option.some.injEq, Prod.mk.injEq] at h
      obtain ⟨hstem, hext⟩ := h
      have hsplit := List.takeWhile_append_dropWhile isWordChar f.reverse
      rw [heq] at hsplit
      have hf : f = (f.reverse.takeWhile isWordChar ++ '.' :: stemR).reverse := by
        rw [hsplit, List.reverse_reverse]
      rw [hf, List.reverse_append, List.reverse_cons, ← hstem, ← hext]
      simp
  next => exact absurd h (by simp)

/-! ## Claim C3 -/

/-- Claim C3: for every input path on which the extension pattern of line 83
matches and every non-empty suffix, the output path differs from the input
path (the inserted suffix makes the output strictly longer). -/
theorem output_ne_input (f suf stem ext : List Char)
    (hsplit : splitExt f = some (stem, ext)) (hsuf : suf ≠ []) :
    outputName f suf ≠ f := by
  intro heq
  have hout : outputName f suf = stem ++ suf ++ '.' :: ext := by
    simp [outputName, hsplit]
  have hf : f = stem ++ '.' :: ext := splitExt_decomp hsplit
  rw [hout, hf] at heq
  have hlen := congrArg List.length heq
  simp [List.length_append] at hlen
  exact hsuf (by simpa using hlen)

/-- Witness for `output_ne_input` at `filename = "video.mp4"`, `suffix = "_ts"`. -/
theorem output_ne_input_witness :
    outputName "video.mp4".toList "_ts".toList ≠ "video.mp4".toList :=
  output_ne_input "video.mp4".toList "_ts".toList "video".toList "mp4".toList
    (by decide) (by decide)

/-! ## Claim C7 -/

/-- Claim C7: the output path is the input path with the suffix inserted
immediately before the last `.extension` segment (the segment anchored at the
end of the string), and in particular `"video.mp4"` with suffix `"_ts"` maps
to `"video_ts.mp4"` and `"clip.mov"` with suffix `"_stamped"` maps to
`"clip_stamped.mov"`. -/
theorem output_path_derivation (f suf stem ext : List Char)
    (hsplit : splitExt f = some (stem, ext)) :
    outputName f suf = stem ++ suf ++ '.' :: ext
    ∧ f = stem ++ '.' :: ext
    ∧ outputName "video.mp4".toList "_ts".toList = "video_ts.mp4".toList
    ∧ outputName "clip.mov".toList "_stamped".toList = "clip_stamped.mov".toList := by
  refine ⟨by simp [outputName, hsplit], splitExt_decomp hsplit, by decide, by decide⟩

/-- Witness for `output_path_derivation` at `filename = "clip.mov"`,
`suffix = "_stamped"`. -/
theorem output_path_derivation_witness :
    outputName "clip.mov".toList "_stamped".toList
      = "clip".toList ++ "_stamped".toList ++ '.' :: "mov".toList
    ∧ "clip.mov".toList = "clip".toList ++ '.' :: "mov".toList
    ∧ outputName "video.mp4".toList "_ts".toList = "video_ts.mp4".toList
    ∧ outputName "clip.mov".toList "_stamped".toList = "clip_stamped.mov".toList :=
  output_path_derivation "clip.mov".toList "_stamped".toList "clip".toList "mov".toList
    (by decide)

/-! ## Probing and stream selection (stamper.py, lines 51-57)

```
try:
    info = probe(filename)
    stream = next(filter(lambda s: s['codec_type'] == 'video', info['streams']))
except subprocess.CalledProcessError:
    print(f'Error: invalid input file {filename}')
    return
```
Only `CalledProcessError` is caught; `next` on an empty iterator raises
`StopIteration`, which nothing in the program handles. -/

/-- One entry of the probed `streams` array. -/
structure StreamInfo where
  codec_type : String
  width : ℤ
  height : ℤ
  codec_name : String
deriving DecidableEq

/-- Result of the external `ffprobe` call: either a nonzero exit status
(`subprocess.CalledProcessError`) or a parsed list of streams. -/
inductive ProbeResult where
  | callError : ProbeResult
  | ok : List StreamInfo → ProbeResult
deriving DecidableEq

/-- `next(filter(lambda s: s['codec_type'] == 'video', streams))` without the
raise: the first stream whose `codec_type` is `"video"`. -/
def findVideoStream (streams : List StreamInfo) : Option StreamInfo :=
  streams.find? (fun s => s.codec_type == "video")

/-- How the probe phase of `process` ends: the file is skipped (warning
printed, `process` returns `None`), the program dies on an uncaught
`StopIteration`, or a video stream is selected and processing continues. -/
inductive ProbePhase where
  | skip : ProbePhase
  | uncaughtStopIteration : ProbePhase
  | video : StreamInfo → ProbePhase
deriving DecidableEq

/-- The probe phase of `process` (lines 52-57): `CalledProcessError` is caught
and the file skipped; a stream list without a video stream makes `next` raise
`StopIteration`, which no handler catches. -/
def probePhase : ProbeResult → ProbePhase
  | .callError => .skip
  | .ok streams =>
    match findVideoStream streams with
    | some s => .video s
    | none => .uncaughtStopIteration

/-- Per-file outcome as seen by the `handle_cli` loop (lines 122-131). -/
inductive BatchStep where
  | processed : BatchStep
  | skipped : BatchStep
deriving DecidableEq

/-- The CLI batch loop: files are handled in order; a skipped file lets the
loop continue, but an uncaught exception aborts the whole loop (the remaining
files are never reached).  The boolean records whether the batch crashed. -/
def runBatch : List ProbeResult → List BatchStep × Bool
  | [] => ([], false)
  | p :: ps =>
    match probePhase p with
    | .skip => ((runBatch ps).1.cons .skipped, (runBatch ps).2)
    | .uncaughtStopIteration => ([], true)
    | .video _ => ((runBatch ps).1.cons .processed, (runBatch ps).2)

/-- A probed audio-only file: ffprobe exits with status 0 but no stream has
`codec_type == "video"`. -/
def audioOnlyStreams : List StreamInfo := [⟨"audio", 0, 0, "aac"⟩]

/-- A probed normal video file. -/
def videoStreams : List StreamInfo := [⟨"video", 1920, 1080, "h264"⟩]

/-! ## Claim C5 -/

/-- Claim C5 (code bug evidence): a nonzero ffprobe exit status is caught and
the file skipped, but a file with no video stream raises an uncaught
`StopIteration` instead of being skipped, and that crash aborts the batch
before the remaining files are processed. -/
theorem probe_no_video_crashes :
    probePhase .callError = .skip
    ∧ probePhase (.ok audioOnlyStreams) = .uncaughtStopIteration
    ∧ probePhase (.ok audioOnlyStreams) ≠ .skip
    ∧ runBatch [.callError, .ok videoStreams] = ([.skipped, .processed], false)
    ∧ runBatch [.ok audioOnlyStreams, .ok videoStreams] = ([], true) := by
  decide

/-! ## Position expressions and the fontSize division (stamper.py, lines 67-79)

```
scaled_size = size * min(width, height) / 300

x = margin * scaled_size / size
if position_x == 'center':
    x = f'(W-text_w)/2'
elif position_x == 'right':
    x = f'W-text_w-{x}'
```
The division by `size` happens before the position is examined; when
`size == 0` Python raises an unhandled `ZeroDivisionError` (the only guarded
exception in `process` is `CalledProcessError` around the probe). -/

/-- `scaled_size` from stamper.py line 67. -/
def scaled_size (size : ℚ) (width height : ℤ) : ℚ :=
  size * ((min width height : ℤ) : ℚ) / 300

/-- Error kinds relevant to the planner: the spec's `InvalidOption`, and the
Python `ZeroDivisionError` the code actually raises. -/
inductive ErrKind where
  | invalidOption : ErrKind
  | zeroDivision : ErrKind
deriving DecidableEq

/-- The value of the drawtext `x` key: either the literal margin-derived
offset (a number), the centering expression `(W-text_w)/2`, or the
right-aligned expression `W-text_w-{m}` with the offset interpolated. -/
inductive XExprV where
  | lit : ℚ → XExprV
  | centerW : XExprV
  | rightW : ℚ → XExprV
deriving DecidableEq

/-- The value of the drawtext `y` key: literal offset, `(H-text_h)/2`, or
`H-text_h-{m}`. -/
inductive YExprV where
  | lit : ℚ → YExprV
  | centerH : YExprV
  | bottomH : ℚ → YExprV
deriving DecidableEq

/-- Lines 69-73: `x = margin * scaled_size / size` (raising
`ZeroDivisionError` when `size == 0`), then overwritten for `center` and
`right`. -/
def xExpr (position_x : String) (margin scaled size : ℚ) : Except ErrKind XExprV :=
  if size = 0 then .error .zeroDivision
  else
    let m := margin * scaled / size
    .ok (if position_x = "center" then .centerW
         else if position_x = "right" then .rightW m
         else .lit m)

/-- Lines 75-79: same computation for the vertical position with `center` and
`bottom`. -/
def yExpr (position_y : String) (margin scaled size : ℚ) : Except ErrKind YExprV :=
  if size = 0 then .error .zeroDivision
  else
    let m := margin * scaled / size
    .ok (if position_y = "center" then .centerH
         else if position_y = "bottom" then .bottomH m
         else .lit m)

/-- Render the drawtext `x` value to the string that is interpolated into the
filter graph, given a rendering `numStr` of Python numbers. -/
def renderX (numStr : ℚ → List Char) : XExprV → List Char
  | .lit m => numStr m
  | .centerW => "(W-text_w)/2".toList
  | .rightW m => "W-text_w-".toList ++ numStr m

/-- Render the drawtext `y` value. -/
def renderY (numStr : ℚ → List Char) : YExprV → List Char
  | .lit m => numStr m
  | .centerH => "(H-text_h)/2".toList
  | .bottomH m => "H-text_h-".toList ++ numStr m

/-! ## Claim C4 -/

/-- Claim C4 (code bug evidence): with `fontSize = 0` (an option the GUI's
`validate_float(…, min=0, …)` accepts and the CLI does not reject) the
margin-offset division on line 69 raises `ZeroDivisionError`, which is not the
`InvalidOption` failure the claim describes — no handler catches it; with
`fontSize > 0` the code does compute `m = margin * scaledFontSize / fontSize`
(shown here at margin 10, fontSize 20, a 1920x1080 stream). -/
theorem fontsize_zero_division_unguarded :
    xExpr "left" 10 (scaled_size 0 1920 1080) 0 = .error .zeroDivision
    ∧ yExpr "bottom" 10 (scaled_size 0 1920 1080) 0 = .error .zeroDivision
    ∧ (Except.error ErrKind.zeroDivision : Except ErrKind XExprV) ≠ .error .invalidOption
    ∧ xExpr "left" 10 (scaled_size 20 1920 1080) 20
        = .ok (.lit (10 * scaled_size 20 1920 1080 / 20)) := by
  refine ⟨?_, ?_, ?_, ?_⟩
  · simp [xExpr]
  · simp [yExpr]
  · simp
  · simp only [xExpr, if_neg (show (20 : ℚ) ≠ 0 by norm_num)]
    rfl

/-! ## Claim C8 -/

/-- Claim C8: `positionX = left` yields the literal margin-derived offset,
`center` yields the centering expression `(W-text_w)/2` (independent of the
margin), `right` yields `W-text_w-{m}` referencing the text width and the
margin offset — and symmetrically `top`/`center`/`bottom` for `positionY`. -/
theorem position_expr_selection (margin margin2 scaled size : ℚ)
    (numStr : ℚ → List Char) (h : size ≠ 0) :
    xExpr "left" margin scaled size = .ok (.lit (margin * scaled / size))
    ∧ xExpr "center" margin scaled size = .ok .centerW
    ∧ xExpr "center" margin scaled size = xExpr "center" margin2 scaled size
    ∧ xExpr "right" margin scaled size = .ok (.rightW (margin * scaled / size))
    ∧ renderX numStr .centerW = "(W-text_w)/2".toList
    ∧ renderX numStr (.rightW (margin * scaled / size))
        = "W-text_w-".toList ++ numStr (margin * scaled / size)
    ∧ yExpr "top" margin scaled size = .ok (.lit (margin * scaled / size))
    ∧ yExpr "center" margin scaled size = .ok .centerH
    ∧ yExpr "center" margin scaled size = yExpr "center" margin2 scaled size
    ∧ yExpr "bottom" margin scaled size = .ok (.bottomH (margin * scaled / size))
    ∧ renderY numStr .centerH = "(H-text_h)/2".toList
    ∧ renderY numStr (.bottomH (margin * scaled / size))
        = "H-text_h-".toList ++ numStr (margin * scaled / size) := by
  refine ⟨?_, ?_, ?_, ?_, rfl, rfl, ?_, ?_, ?_, ?_, rfl, rfl⟩ <;>
    simp only [xExpr, yExpr, if_neg h] <;> rfl

/-- Witness for `position_expr_selection` at margin 10 (and 20 for the
independence conjunct), scaled size 64, fontSize 20. -/
theorem position_expr_selection_witness :
    xExpr "left" 10 64 20 = .ok (.lit (10 * 64 / 20))
    ∧ xExpr "center" 10 64 20 = .ok .centerW
    ∧ xExpr "center" 10 64 20 = xExpr "center" 20 64 20
    ∧ xExpr "right" 10 64 20 = .ok (.rightW (10 * 64 / 20))
    ∧ renderX (fun _ => ['0']) .centerW = "(W-text_w)/2".toList
    ∧ renderX (fun _ => ['0']) (.rightW (10 * 64 / 20))
        = "W-text_w-".toList ++ (fun _ => ['0']) (10 * 64 / 20)
    ∧ yExpr "top" 10 64 20 = .ok (.lit (10 * 64 / 20))
    ∧ yExpr "center" 10 64 20 = .ok .centerH
    ∧ yExpr "center" 10 64 20 = yExpr "center" 20 64 20
    ∧ yExpr "bottom" 10 64 20 = .ok (.bottomH (10 * 64 / 20))
    ∧ renderY (fun _ => ['0']) .centerH = "(H-text_h)/2".toList
    ∧ renderY (fun _ => ['0']) (.bottomH (10 * 64 / 20))
        = "H-text_h-".toList ++ (fun _ => ['0']) (10 * 64 / 20) :=
  position_expr_selection 10 20 64 20 (fun _ => ['0']) (by norm_num)

/-! ## The drawtext mapping (stamper.py, lines 95-106) -/

/-- A value of the drawtext mapping: a Python number or a string. -/
inductive DVal where
  | num : ℚ → DVal
  | txt : List Char → DVal
deriving DecidableEq

/-- The drawtext `text` value, line 105:
`fr'%{{pts:localtime:{int(creation_time)}}}'`. -/
def textVal (creation : ℤ) : List Char :=
  ("%\x7bpts:localtime:" ++ toString creation ++ "\x7d").toList

/-- The x entry as stored in the mapping: a number when it is the literal
offset, otherwise the rendered expression string. -/
def xDVal (numStr : ℚ → List Char) : XExprV → DVal
  | .lit m => .num m
  | v => .txt (renderX numStr v)

/-- The y entry as stored in the mapping. -/
def yDVal (numStr : ℚ → List Char) : YExprV → DVal
  | .lit m => .num m
  | v => .txt (renderY numStr v)

/-- The ordered drawtext mapping of stamper.py lines 95-106, with `scaled` the
already-computed `scaled_size`:
```
{'alpha': opacity/100,
 ('fontfile' if '.' in font else 'font'): font.replace('\\', '/'),
 'fontcolor': color, 'fontsize': scaled_size,
 'bordercolor': border, 'borderw': scaled_size/16,
 'x': x, 'y': y,
 'text': fr'%{{pts:localtime:{int(creation_time)}}}'}
```
`numStr` stands for Python's number-to-string rendering used on the x and y
expression strings. -/
def drawtextPairs (numStr : ℚ → List Char) (opacity : ℚ) (font color : List Char)
    (scaled : ℚ) (border : List Char) (xv : XExprV) (yv : YExprV)
    (creation : ℤ) : List (List Char × DVal) :=
  [ ("alpha".toList, .num (opacity / 100)),
    ((if font.contains '.' then "fontfile".toList else "font".toList),
      .txt (replaceChar '\\' ['/'] font)),
    ("fontcolor".toList, .txt color),
    ("fontsize".toList, .num scaled),
    ("bordercolor".toList, .txt border),
    ("borderw".toList, .num (scaled / 16)),
    ("x".toList, xDVal numStr xv),
    ("y".toList, yDVal numStr yv),
    ("text".toList, .txt (textVal creation)) ]

/-! ## Claim C6 -/

/-- Claim C6: for positive fontSize, margin, width and height, the scaled font
size is exactly `fontSize * min(width, height) / 300` — it is the value stored
under the `fontsize` key — and the value stored under the drawtext `borderw`
key is exactly `scaled_size / 16`. -/
theorem scaled_metrics (size margin : ℚ) (width height : ℤ)
    (numStr : ℚ → List Char) (opacity : ℚ) (font color border : List Char)
    (xv : XExprV) (yv : YExprV) (creation : ℤ)
    (_hs : 0 < size) (_hm : 0 < margin) (_hw : 0 < width) (_hh : 0 < height) :
    scaled_size size width height = size * ((min width height : ℤ) : ℚ) / 300
    ∧ (drawtextPairs numStr opacity font color (scaled_size size width height)
        border xv yv creation).get? 3
      = some ("fontsize".toList, .num (scaled_size size width height))
    ∧ (drawtextPairs numStr opacity font color (scaled_size size width height)
        border xv yv creation).get? 5
      = some ("borderw".toList, .num (scaled_size size width height / 16)) :=
  ⟨rfl, rfl, rfl⟩

/-- Witness for `scaled_metrics` at the CLI defaults (fontSize 20, margin 10)
on a 1920x1080 stream. -/
theorem scaled_metrics_witness :
    scaled_size 20 1920 1080 = 20 * ((min 1920 1080 : ℤ) : ℚ) / 300
    ∧ (drawtextPairs (fun _ => ['0']) 100 "Arial".toList "white".toList
        (scaled_size 20 1920 1080) "black".toList (.lit 1) (.lit 1) 0).get? 3
      = some ("fontsize".toList, .num (scaled_size 20 1920 1080))
    ∧ (drawtextPairs (fun _ => ['0']) 100 "Arial".toList "white".toList
        (scaled_size 20 1920 1080) "black".toList (.lit 1) (.lit 1) 0).get? 5
      = some ("borderw".toList, .num (scaled_size 20 1920 1080 / 16)) :=
  scaled_metrics 20 10 1920 1080 (fun _ => ['0']) 100 "Arial".toList
    "white".toList "black".toList (.lit 1) (.lit 1) 0
    (by norm_num) (by norm_num) (by norm_num) (by norm_num)

/-! ## GUI suffix validation (stamper.py, lines 18 and 207-214)

```
prefix_re = r'[a-zA-Z0-9_-]'
...
def start():
    if not suffix_textbox.value:
        app.error("Error", "Suffix is empty")
        return
    if not re.match(prefix_re, suffix_textbox.value):
        app.error("Error", "Suffix is not alphanumeric")
        return
```
`re.match` with the one-character class and no anchor or quantifier succeeds
exactly when the string is non-empty and its first character is in the class. -/

/-- Membership in the character class `[a-zA-Z0-9_-]` of stamper.py line 18. -/
def suffixCharOk (c : Char) : Bool :=
  c.isAlpha || c.isDigit || c = '_' || c = '-'

/-- The `start()` validation, lines 208-214: reject the empty suffix, then
test `re.match(r'[a-zA-Z0-9_-]', suffix)`, which only examines the first
character.  Returns `true` when the start request proceeds past validation. -/
def startSuffixCheck : List Char → Bool
  | [] => false
  | c :: _ => suffixCharOk c

/-- The validation as the spec words it (claim C9): the whole suffix is
non-empty and matches `[A-Za-z0-9_-]+`, i.e. every character is in the
class.  Spec-side definition, to be compared with `startSuffixCheck`. -/
def suffixSpecOk (s : List Char) : Bool :=
  !s.isEmpty && s.all suffixCharOk

/-! ## Claim C9 -/

/-- Claim C9 (code bug evidence): the suffix `"_ts!"` violates the pattern
`[A-Za-z0-9_-]+` (the `'!'` is outside the class), yet the GUI start
validation accepts it, because `re.match` with the unanchored one-character
pattern of line 18 only tests the first character; empty and first-character
violations are still rejected. -/
theorem suffix_validation_first_char_only :
    startSuffixCheck "_ts!".toList = true
    ∧ suffixSpecOk "_ts!".toList = false
    ∧ startSuffixCheck "".toList = false
    ∧ startSuffixCheck "!bad".toList = false := by
  decide

/-! ## Command construction (stamper.py, lines 85-113)

```
return ['ffmpeg', '-y', '-hide_banner',
        *input_flags, '-i', filename,
        '-c:a', 'copy',
        '-qp', str(qp),
        '-vf', f'drawtext="{":".join(f"{escape(k)}={escape(str(v))}" for k, v in drawtext.items())}',
        *output_flags, output]
```
with `input_flags = ['-hwaccel', 'cuda', '-c:v', f'{codec}_cuvid']` and
`output_flags = ['-c:v', f'{codec}_nvenc']` when `gpu` is set, else empty.
`joinSep` is Python `str.join`; the rendered key/value strings of the
drawtext mapping are the `pairs` parameter (Python's `str()` is applied by
the caller). -/

/-- Python `sep.join(pieces)`. -/
def joinSep (sep : List Char) : List (List Char) → List Char
  | [] => []
  | [p] => p
  | p :: ps => p ++ sep ++ joinSep sep ps

/-- The single `-vf` value of line 112: the literal `drawtext="` (the quote is
opened and never closed) followed by the escaped `key=value` pairs joined
with `:`. -/
def vfValue (pairs : List (List Char × List Char)) : List Char :=
  "drawtext=\"".toList
    ++ joinSep [':'] (pairs.map (fun kv => escape kv.1 ++ '=' :: escape kv.2))

/-- The argument list returned by `process`, lines 85-113. -/
def buildCmd (gpu : Bool) (filename codec qpStr vf output : List Char) :
    List (List Char) :=
  ["ffmpeg".toList, "-y".toList, "-hide_banner".toList]
  ++ (if gpu then
        ["-hwaccel".toList, "cuda".toList, "-c:v".toList, codec ++ "_cuvid".toList]
      else [])
  ++ ["-i".toList, filename, "-c:a".toList, "copy".toList,
      "-qp".toList, qpStr, "-vf".toList, vf]
  ++ (if gpu then ["-c:v".toList, codec ++ "_nvenc".toList] else [])
  ++ [output]

/-- If a character is in neither the input nor the replacement, it is not in
the result of `replaceChar`. -/
theorem not_mem_replaceChar {x c : Char} {r : List Char} :
    ∀ {s : List Char}, x ∉ s → x ∉ r → x ∉ replaceChar c r s
  | [], _, _ => by simp [replaceChar]
  | a :: t, hs, hr => by
    have hxt : x ∉ t := fun h => hs (List.mem_cons_of_mem _ h)
    have hxa : x ≠ a := fun h => hs (h ▸ List.mem_cons_self a t)
    have ih : x ∉ replaceChar c r t := not_mem_replaceChar hxt hr
    intro hmem
    rcases List.mem_append.mp hmem with hm | hm
    · by_cases hac : a = c
      · rw [if_pos hac] at hm
        exact hr hm
      · rw [if_neg hac] at hm
        exact hxa (List.mem_singleton.mp hm)
    · exact ih hm

/-- `replaceChar` does nothing when the replaced character does not occur. -/
theorem replaceChar_eq_of_not_mem {c : Char} {r : List Char} :
    ∀ {s : List Char}, c ∉ s → replaceChar c r s = s
  | [], _ => rfl
  | a :: t, hs => by
    have hac : a ≠ c := fun h => hs (h ▸ List.mem_cons_self a t)
    have ht : c ∉ t := fun h => hs (List.mem_cons_of_mem _ h)
    simp [replaceChar, if_neg hac, replaceChar_eq_of_not_mem ht]

/-- `escape` introduces no double-quote into a quote-free string. -/
theorem quote_not_mem_escape {s : List Char} (h : '"' ∉ s) : '"' ∉ escape s := by
  unfold escape
  have h1 : '"' ∉ replaceChar ':' ['\\', ':'] s := not_mem_replaceChar h (by decide)
  rw [replaceChar_eq_of_not_mem h1]
  exact not_mem_replaceChar h1 (by decide)

/-- A character in neither the separator nor any piece is not in the join. -/
theorem not_mem_joinSep {x : Char} {sep : List Char} (hsep : x ∉ sep) :
    ∀ (ps : List (List Char)), (∀ p ∈ ps, x ∉ p) → x ∉ joinSep sep ps
  | [], _ => by simp [joinSep]
  | [p], hp => by
    simp only [joinSep]
    exact hp p (by simp)
  | p :: q :: rs, hp => by
    have ih := not_mem_joinSep hsep (q :: rs)
      (fun r hr => hp r (List.mem_cons_of_mem _ hr))
    intro hmem
    simp only [joinSep] at hmem
    rcases List.mem_append.mp hmem with hm | hm
    · rcases List.mem_append.mp hm with hm2 | hm2
      · exact hp p (by simp) hm2
      · exact hsep hm2
    · exact ih hm

/-! ## Claim C10 -/

/-- Claim C10: for a planned file the built argument list contains exactly one
`-vf` argument; the element right after `-vf` is the filter value; that value
is the literal prefix `drawtext="` followed by the escaped `key=value` pairs
joined with `:`; and — the raw keys and values being quote-free, as all the
drawtext entries are — the double-quote opened after `drawtext=` is the only
double-quote in the argument, so it is never closed. -/
theorem vf_single_argument (gpu : Bool) (filename codec qpStr output : List Char)
    (pairs : List (List Char × List Char))
    (hf : filename ≠ "-vf".toList) (hq : qpStr ≠ "-vf".toList)
    (ho : output ≠ "-vf".toList)
    (hnq : ∀ kv ∈ pairs, '"' ∉ kv.1 ∧ '"' ∉ kv.2) :
    (buildCmd gpu filename codec qpStr (vfValue pairs) output).count ("-vf".toList) = 1
    ∧ (buildCmd gpu filename codec qpStr (vfValue pairs) output).get?
        (if gpu then 13 else 9) = some ("-vf".toList)
    ∧ (buildCmd gpu filename codec qpStr (vfValue pairs) output).get?
        (if gpu then 14 else 10) = some (vfValue pairs)
    ∧ vfValue pairs = "drawtext=\"".toList
        ++ joinSep [':'] (pairs.map (fun kv => escape kv.1 ++ '=' :: escape kv.2))
    ∧ (vfValue pairs).count '"' = 1 := by
  have hvf : vfValue pairs ≠ "-vf".toList := by
    intro e
    have hl := congrArg List.length e
    simp only [vfValue, List.length_append] at hl
    have h1 : ("drawtext=\"".toList).length = 10 := rfl
    have h2 : ("-vf".toList).length = 3 := rfl
    rw [h1, h2] at hl
    omega
  have hcu : codec ++ "_cuvid".toList ≠ "-vf".toList := by
    intro e
    have hl := congrArg List.length e
    simp only [List.length_append] at hl
    have h1 : ("_cuvid".toList).length = 6 := rfl
    have h2 : ("-vf".toList).length = 3 := rfl
    rw [h1, h2] at hl
    omega
  have hnv : codec ++ "_nvenc".toList ≠ "-vf".toList := by
    intro e
    have hl := congrArg List.length e
    simp only [List.length_append] at hl
    have h1 : ("_nvenc".toList).length = 6 := rfl
    have h2 : ("-vf".toList).length = 3 := rfl
    rw [h1, h2] at hl
    omega
  have hquote : (vfValue pairs).count '"' = 1 := by
    have hjoin :
        '"' ∉ joinSep [':'] (pairs.map (fun kv => escape kv.1 ++ '=' :: escape kv.2)) := by
      apply not_mem_joinSep (by decide)
      intro p hp
      rcases List.mem_map.mp hp with ⟨kv, hkv, rfl⟩
      intro hmem
      rcases List.mem_append.mp hmem with hm | hm
      · exact quote_not_mem_escape (hnq kv hkv).1 hm
      · rcases List.mem_cons.mp hm with he | hm2
        · exact absurd he (by decide)
        · exact quote_not_mem_escape (hnq kv hkv).2 hm2
    unfold vfValue
    rw [List.count_append, List.count_eq_zero.mpr hjoin]
    decide
  refine ⟨?_, ?_, ?_, rfl, hquote⟩
  · cases gpu
    · have hb : buildCmd false filename codec qpStr (vfValue pairs) output
          = ["ffmpeg".toList, "-y".toList, "-hide_banner".toList, "-i".toList,
             filename, "-c:a".toList, "copy".toList, "-qp".toList, qpStr,
             "-vf".toList, vfValue pairs, output] := rfl
      rw [hb, List.count_cons_of_ne (by decide), List.count_cons_of_ne (by decide),
          List.count_cons_of_ne (by decide), List.count_cons_of_ne (by decide),
          List.count_cons_of_ne (Ne.symm hf), List.count_cons_of_ne (by decide),
          List.count_cons_of_ne (by decide), List.count_cons_of_ne (by decide),
          List.count_cons_of_ne (Ne.symm hq), List.count_cons_self,
          List.count_cons_of_ne (Ne.symm hvf), List.count_cons_of_ne (Ne.symm ho),
          List.count_nil]
    · have hb : buildCmd true filename codec qpStr (vfValue pairs) output
          = ["ffmpeg".toList, "-y".toList, "-hide_banner".toList, "-hwaccel".toList,
             "cuda".toList, "-c:v".toList, codec ++ "_cuvid".toList, "-i".toList,
             filename, "-c:a".toList, "copy".toList, "-qp".toList, qpStr,
             "-vf".toList, vfValue pairs, "-c:v".toList, codec ++ "_nvenc".toList,
             output] := rfl
      rw [hb, List.count_cons_of_ne (by decide), List.count_cons_of_ne (by decide),
          List.count_cons_of_ne (by decide), List.count_cons_of_ne (by decide),
          List.count_cons_of_ne (by decide), List.count_cons_of_ne (by decide),
          List.count_cons_of_ne (Ne.symm hcu), List.count_cons_of_ne (by decide),
          List.count_cons_of_ne (Ne.symm hf), List.count_cons_of_ne (by decide),
          List.count_cons_of_ne (by decide), List.count_cons_of_ne (by decide),
          List.count_cons_of_ne (Ne.symm hq), List.count_cons_self,
          List.count_cons_of_ne (Ne.symm hvf), List.count_cons_of_ne (by decide),
          List.count_cons_of_ne (Ne.symm hnv), List.count_cons_of_ne (Ne.symm ho),
          List.count_nil]
  · cases gpu <;> rfl
  · cases gpu <;> rfl

/-- Witness for `vf_single_argument`: a concrete non-GPU invocation with one
quote-free drawtext pair. -/
theorem vf_single_argument_witness :
    (buildCmd false ("in.mp4".toList) ("h264".toList) ("17".toList)
        (vfValue [("fontcolor".toList, "white".toList)]) ("in_ts.mp4".toList)).count
        ("-vf".toList) = 1
    ∧ (buildCmd false ("in.mp4".toList) ("h264".toList) ("17".toList)
        (vfValue [("fontcolor".toList, "white".toList)]) ("in_ts.mp4".toList)).get?
        (if false then 13 else 9) = some ("-vf".toList)
    ∧ (buildCmd false ("in.mp4".toList) ("h264".toList) ("17".toList)
        (vfValue [("fontcolor".toList, "white".toList)]) ("in_ts.mp4".toList)).get?
        (if false then 14 else 10) = some (vfValue [("fontcolor".toList, "white".toList)])
    ∧ vfValue [("fontcolor".toList, "white".toList)] = "drawtext=\"".toList
        ++ joinSep [':'] ([("fontcolor".toList, "white".toList)].map
            (fun kv => escape kv.1 ++ '=' :: escape kv.2))
    ∧ (vfValue [("fontcolor".toList, "white".toList)]).count '"' = 1 :=
  vf_single_argument false ("in.mp4".toList) ("h264".toList) ("17".toList)
    ("in_ts.mp4".toList) [("fontcolor".toList, "white".toList)]
    (by decide) (by decide) (by decide) (by decide)
